import Mathlib

/-!
Shallow embedding of the core data pipeline of the Clinical AMR Surveillance
Dashboard (`src/app.py`): column-name standardization, required-column and
categorical-value validation, S/I/R encoding, the wide-to-long reshape,
gender / sample-type filtering, the per-antibiotic resistance-distribution
summary, and the MDR / ESBL prevalence percentages.

Tables are modelled as lists of rows; a missing cell (pandas `NaN`) is
`Option.none`; numeric resistance scores are `Rat`.
-/

namespace AMRDash

/-! ### Schema Normalizer (`app.py` lines 83-88)

`df.columns.str.strip().str.upper().str.replace(" ", "_").str.replace("/", "_")`
modelled character-wise on the underlying character list of each name. -/

/-- Replace every occurrence of character `a` by `b` (single-character
`str.replace`, which substitutes all occurrences). -/
def replaceChar (a b : Char) (l : List Char) : List Char :=
  l.map fun c => if c = a then b else c

/-- Python `str.strip()`: drop leading and trailing whitespace. -/
def stripChars (l : List Char) : List Char :=
  (l.dropWhile Char.isWhitespace).rdropWhile Char.isWhitespace

/-- One column name through strip → upper → `" "→"_"` → `"/"→"_"`,
on the character list. -/
def normalizeNameL (l : List Char) : List Char :=
  replaceChar '/' '_' (replaceChar ' ' '_' ((stripChars l).map Char.toUpper))

/-- Column-name standardization for one header. -/
def normalizeName (s : String) : String :=
  ⟨normalizeNameL s.data⟩

/-- `df.columns = df.columns.str.strip().str.upper()...` over the header set. -/
def standardizeColumns (hs : List String) : List String :=
  hs.map normalizeName

/-- The per-character action of upper-casing followed by the two replacements
(used only in proofs; pointwise equal to the composition of the three maps). -/
def normChar (c : Char) : Char :=
  if (if Char.toUpper c = ' ' then '_' else Char.toUpper c) = '/' then '_'
  else (if Char.toUpper c = ' ' then '_' else Char.toUpper c)

/-- Python `str.upper()` on a whole string. -/
def strUpper (s : String) : String :=
  ⟨s.data.map Char.toUpper⟩

/-! ### Raw table and the Validator (`app.py` lines 90-103) -/

/-- `required_cols = ["SNO", "SAMPLE_TYPE", "GENDER", "ESBL", "MDR", "MAR_INDEX"]`. -/
def requiredCols : List String :=
  ["SNO", "SAMPLE_TYPE", "GENDER", "ESBL", "MDR", "MAR_INDEX"]

/-- A raw loaded table: a header list and one cell list per row; a cell is
`none` when the spreadsheet cell is missing (`NaN`). -/
structure RawTable where
  headers : List String
  rows : List (List (Option String))
deriving DecidableEq

/-- Lines 83-88 applied to a table: standardize every column name. -/
def standardize (t : RawTable) : RawTable :=
  { headers := t.headers.map normalizeName, rows := t.rows }

/-- `missing = [c for c in required_cols if c not in df.columns]` (line 91). -/
def missingCols (t : RawTable) : List String :=
  requiredCols.filter fun c => decide (c ∉ t.headers)

/-- `antibiotic_cols = [c for c in df.columns if c not in required_cols]` (line 96). -/
def antibioticCols (t : RawTable) : List String :=
  t.headers.filter fun c => decide (c ∉ requiredCols)

/-- `df[col]` evaluated at one row: the cell under column name `c`
(position of the first matching header). -/
def cellAt (t : RawTable) (c : String) (row : List (Option String)) : Option String :=
  match t.headers.findIdx? (· == c) with
  | some i => row.getD i none
  | none => none

/-- `set(df[col].dropna().astype(str).str.upper()) - allowed_vals` (line 100):
the distinct upper-cased non-missing values of column `c` that are outside
`{S, I, R}`, in first-appearance order. -/
def badValues (t : RawTable) (c : String) : List String :=
  (((t.rows.map (cellAt t c)).filterMap id).map strUpper).dedup.filter
    fun v => decide (v ∉ (["S", "I", "R"] : List String))

/-- The validation loop of lines 99-103: walk the antibiotic columns in order
and stop at the first column with a nonempty bad-value set (`st.stop()` fires
inside the loop, so later columns are never inspected). -/
def firstBad (t : RawTable) : List String → Option (String × List String)
  | [] => none
  | c :: cs => if badValues t c = [] then firstBad t cs else some (c, badValues t c)

/-! ### Typed rows, Encoder and Reshaper (`app.py` lines 106-128) -/

/-- One wide-table row. `α` is the antibiotic-cell type (raw `Option String`,
encoded `Option Rat`), `β` the type of the three case-normalized metadata
columns `GENDER`/`ESBL`/`MDR` (`Option String` before line 106, `String`
after the `astype(str).str.upper()` normalization). -/
structure IsolateG (α β : Type) where
  sno : Option String
  sampleType : Option String
  gender : β
  esbl : β
  mdr : β
  marIndex : Option String
  abx : List α
deriving DecidableEq

/-- A row as loaded (after header standardization, before value normalization). -/
abbrev RawRow := IsolateG (Option String) (Option String)

/-- A row after the metadata normalization of lines 106-108. -/
abbrev NormRow := IsolateG (Option String) String

/-- A row of `df_encoded` (lines 113-117). -/
abbrev EncRow := IsolateG (Option Rat) String

/-- View the validated generic table as typed rows: each named metadata column
plus the antibiotic cells in antibiotic-column order. -/
def toRawIsolates (t : RawTable) : List RawRow :=
  t.rows.map fun row =>
    { sno := cellAt t "SNO" row
      sampleType := cellAt t "SAMPLE_TYPE" row
      gender := cellAt t "GENDER" row
      esbl := cellAt t "ESBL" row
      mdr := cellAt t "MDR" row
      marIndex := cellAt t "MAR_INDEX" row
      abx := (antibioticCols t).map fun c => cellAt t c row }

/-- `astype(str)` on one cell: a missing value prints as `"nan"`. -/
def astypeStr : Option String → String
  | none => "nan"
  | some s => s

/-- Lines 106-108: `df[c] = df[c].astype(str).str.upper()` for
`ESBL`, `MDR`, `GENDER`. -/
def normalizeMetadata (r : RawRow) : NormRow :=
  { sno := r.sno, sampleType := r.sampleType
    gender := strUpper (astypeStr r.gender)
    esbl := strUpper (astypeStr r.esbl)
    mdr := strUpper (astypeStr r.mdr)
    marIndex := r.marIndex, abx := r.abx }

/-- `sir_map = {"S": 0.0, "I": 0.5, "R": 1.0}` (line 113); a value not in the
dictionary maps to `NaN`, i.e. `none`. -/
def sirMap (v : String) : Option Rat :=
  if v = "S" then some 0 else if v = "I" then some (1/2)
  else if v = "R" then some 1 else none

/-- Lines 116-117: `df_encoded[col] = df_encoded[col].map(sir_map)` for every
antibiotic column (a missing cell stays missing). -/
def encodeRow (r : NormRow) : EncRow :=
  { sno := r.sno, sampleType := r.sampleType, gender := r.gender
    esbl := r.esbl, mdr := r.mdr, marIndex := r.marIndex
    abx := r.abx.map fun v => v.bind sirMap }

/-- One row of `df_long` (lines 119-124): all id columns plus the antibiotic
name and its resistance score. -/
structure LongRow where
  sno : Option String
  sampleType : Option String
  gender : String
  esbl : String
  mdr : String
  marIndex : Option String
  antibiotic : String
  resistanceScore : Option Rat
deriving DecidableEq

/-- The long row obtained from encoded row `r` and the antibiotic column named
`c` sitting at position `k`. -/
def mkLong (r : EncRow) (k : Nat) (c : String) : LongRow :=
  { sno := r.sno, sampleType := r.sampleType, gender := r.gender
    esbl := r.esbl, mdr := r.mdr, marIndex := r.marIndex
    antibiotic := c, resistanceScore := r.abx.getD k none }

/-- `df_encoded.melt(id_vars=required_cols, value_vars=antibiotic_cols, ...)`
(lines 119-124): one block of rows per antibiotic column, in column order. -/
def melt (cols : List String) (rows : List EncRow) : List LongRow :=
  cols.enum.flatMap fun p => rows.map fun r => mkLong r p.1 p.2

/-- `df_long["RESISTANCE_LABEL"] = df_long["RESISTANCE_SCORE"].map({...})`
(lines 126-128); scores outside the dictionary, and missing scores, get a
missing label. -/
def resistanceLabel (q : Option Rat) : Option String :=
  q.bind fun x =>
    if x = 0 then some "Sensitive" else if x = 1/2 then some "Intermediate"
    else if x = 1 then some "Resistant" else none

/-! ### Filter Stage (`app.py` lines 135-149) -/

/-- `df["GENDER"].isin(gender_filter) & df["SAMPLE_TYPE"].isin(sample_filter)`
for one row (line 147). -/
def rowPasses (gf : List String) (sf : List (Option String)) (r : NormRow) : Bool :=
  decide (r.gender ∈ gf) && decide (r.sampleType ∈ sf)

/-- Line 147: restrict the wide table to the passing rows. -/
def filterWide (gf : List String) (sf : List (Option String)) (df : List NormRow) :
    List NormRow :=
  df.filter (rowPasses gf sf)

/-- Line 148: `df_encoded = df_encoded.loc[df.index]` — select the encoded rows
positionally aligned with the wide rows that passed the filter. -/
def locSelect (gf : List String) (sf : List (Option String)) (df : List NormRow)
    (dfEnc : List EncRow) : List EncRow :=
  (df.zip dfEnc).filterMap fun p => if rowPasses gf sf p.1 then some p.2 else none

/-- The `SNO` column of the (filtered) wide table. -/
def snosOf (df : List NormRow) : List (Option String) :=
  df.map fun r => r.sno

/-- Line 149: `df_long = df_long[df_long["SNO"].isin(df["SNO"])]`. -/
def filterLong (snos : List (Option String)) (dfLong : List LongRow) : List LongRow :=
  dfLong.filter fun lr => decide (lr.sno ∈ snos)

/-- The multiselect options `sorted(df["GENDER"].unique())` (line 137); only
membership matters downstream, so the observed values are kept in
first-appearance order. -/
def observedGenders (df : List NormRow) : List String :=
  (df.map fun r => r.gender).dedup

/-- The multiselect options `sorted(df["SAMPLE_TYPE"].unique())` (line 143). -/
def observedSampleTypes (df : List NormRow) : List (Option String) :=
  (df.map fun r => r.sampleType).dedup

/-- The filtered long table exactly as the dashboard builds it: melt the
encoded wide table, then keep the rows whose `SNO` is among the `SNO`s of
the filtered wide table (lines 119-124 and 147-149). -/
def filteredLongTable (gf : List String) (sf : List (Option String))
    (abx : List String) (wide : List NormRow) : List LongRow :=
  filterLong (snosOf (filterWide gf sf wide)) (melt abx (wide.map encodeRow))

/-! ### Aggregator pieces used by the claims (`app.py` lines 185-192, 323-325) -/

/-- The `RESISTANCE_LABEL` values of antibiotic `a` in the long table, missing
labels dropped — the rows `groupby(["ANTIBIOTIC", "RESISTANCE_LABEL"])`
actually groups for antibiotic `a` (lines 185-189). -/
def summaryLabels (l : List LongRow) (a : String) : List String :=
  (l.filter fun lr => decide (lr.antibiotic = a)).filterMap
    fun lr => resistanceLabel lr.resistanceScore

/-- Lines 185-192 for one antibiotic: one `(label, PERCENT)` pair per distinct
label, where `PERCENT = COUNT / x.sum() * 100` within the antibiotic. -/
def resistanceDistribution (l : List LongRow) (a : String) : List (String × Rat) :=
  (summaryLabels l a).dedup.map fun lab =>
    (lab, ((summaryLabels l a).count lab : Rat) / ((summaryLabels l a).length : Rat) * 100)

/-- Line 324: `(df["MDR"] == "YES").mean() * 100`. -/
def mdrPct (df : List NormRow) : Rat :=
  ((df.countP fun r => decide (r.mdr = "YES") : Nat) : Rat) / (df.length : Rat) * 100

/-- Line 325: `(df["ESBL"] == "YES").mean() * 100`. -/
def esblPct (df : List NormRow) : Rat :=
  ((df.countP fun r => decide (r.esbl = "YES") : Nat) : Rat) / (df.length : Rat) * 100

/-! ### The pipeline up to the reshape (`app.py` lines 83-128)

The two fatal validation failures halt the script (`st.stop()`), so nothing
downstream — encoded table, long table, aggregate — is produced; this is
modelled with `Except`. -/

/-- The two fatal validation diagnostics of lines 92-94 and 101-103. -/
inductive PipelineError where
  | missingColumnsError : List String → PipelineError
  | invalidCategoricalValueError : String → List String → PipelineError
deriving DecidableEq

/-- Lines 83-128: standardize headers, check required columns, validate
antibiotic values (stopping at the first offending column), normalize
metadata, encode, melt. On success the normalized wide table, the encoded
table and the long table are returned. -/
def runPipeline (t0 : RawTable) :
    Except PipelineError (List NormRow × List EncRow × List LongRow) :=
  if missingCols (standardize t0) ≠ [] then
    .error (.missingColumnsError (missingCols (standardize t0)))
  else
    match firstBad (standardize t0) (antibioticCols (standardize t0)) with
    | some (c, bad) => .error (.invalidCategoricalValueError c bad)
    | none =>
      .ok ((toRawIsolates (standardize t0)).map normalizeMetadata,
        ((toRawIsolates (standardize t0)).map normalizeMetadata).map encodeRow,
        melt (antibioticCols (standardize t0))
          (((toRawIsolates (standardize t0)).map normalizeMetadata).map encodeRow))

/-! ### Concrete tables and rows used to evaluate the pipeline -/

/-- A table whose two antibiotic columns `A` and `B` both contain an
out-of-set value (`"x"` resp. `"Z"`). -/
def tblTwoBad : RawTable :=
  { headers := ["SNO", "SAMPLE_TYPE", "GENDER", "ESBL", "MDR", "MAR_INDEX", "A", "B"]
    rows := [[some "1", some "Urine", some "F", some "YES", some "NO", some "0.25",
              some "x", some "Z"]] }

/-- A table whose single antibiotic column `AMX` holds the lowercase value
`"s"`, which passes case-insensitive validation. -/
def tblLowercase : RawTable :=
  { headers := ["SNO", "SAMPLE_TYPE", "GENDER", "ESBL", "MDR", "MAR_INDEX", "AMX"]
    rows := [[some "1", some "Urine", some "F", some "YES", some "YES", some "0.3",
              some "s"]] }

/-- A table missing the required columns `SNO` and `MDR`. -/
def tblMissing : RawTable :=
  { headers := ["SAMPLE_TYPE", "GENDER", "ESBL", "MAR_INDEX", "AMX"]
    rows := [[some "Urine", some "F", some "YES", some "0.3", some "R"]] }

/-- A normalized wide row: female urine isolate, resistant to the first
antibiotic, sensitive to the second. -/
def rowF : NormRow :=
  { sno := some "1", sampleType := some "Urine", gender := "F", esbl := "YES"
    mdr := "YES", marIndex := some "0.3", abx := [some "R", some "S"] }

/-- A normalized wide row: male blood isolate, sensitive to both antibiotics. -/
def rowM : NormRow :=
  { sno := some "2", sampleType := some "Blood", gender := "M", esbl := "NO"
    mdr := "NO", marIndex := some "0.1", abx := [some "S", some "S"] }

/-- A normalized wide row sharing `SNO = "1"` with `rowF` but with a gender
and sample type of its own. -/
def rowDup : NormRow :=
  { sno := some "1", sampleType := some "Blood", gender := "M", esbl := "NO"
    mdr := "NO", marIndex := some "0.2", abx := [some "I", some "R"] }

/-- A raw row whose `ESBL` and `MDR` cells are both missing. -/
def rowNoFlags : RawRow :=
  { sno := some "3", sampleType := some "Pus", gender := some "F", esbl := none
    mdr := none, marIndex := some "0.5", abx := [some "S", some "I"] }

/-! ### Character-level facts about upper-casing -/

/-- For a lowercase-letter code `n`, the character `Char.ofNat (n - 32)` is the
corresponding uppercase letter: its code is `n - 32`, it is not whitespace,
and it is neither a space nor a slash. -/
theorem upperKey : ∀ n < 123, 97 ≤ n →
    (Char.ofNat (n - 32)).toNat = n - 32 ∧
    Char.isWhitespace (Char.ofNat (n - 32)) = false ∧
    Char.ofNat (n - 32) ≠ ' ' ∧ Char.ofNat (n - 32) ≠ '/' := by decide

theorem toUpper_idem (c : Char) : Char.toUpper (Char.toUpper c) = Char.toUpper c := by
  simp only [Char.toUpper]
  by_cases h : c.toNat ≥ 97 ∧ c.toNat ≤ 122
  · rw [if_pos h]
    have hk := (upperKey c.toNat (by omega) (by omega)).1
    have hcond : ¬((Char.ofNat (c.toNat - 32)).toNat ≥ 97 ∧
        (Char.ofNat (c.toNat - 32)).toNat ≤ 122) := by
      rw [hk]; omega
    rw [if_neg hcond]
  · rw [if_neg h, if_neg h]

theorem toUpper_ws (c : Char) (h : Char.isWhitespace c = false) :
    Char.isWhitespace (Char.toUpper c) = false := by
  simp only [Char.toUpper]
  by_cases hc : c.toNat ≥ 97 ∧ c.toNat ≤ 122
  · rw [if_pos hc]; exact (upperKey c.toNat (by omega) (by omega)).2.1
  · rw [if_neg hc]; exact h

theorem normChar_cases (c : Char) :
    normChar c = '_' ∨
    (normChar c = Char.toUpper c ∧ Char.toUpper c ≠ ' ' ∧ Char.toUpper c ≠ '/') := by
  unfold normChar
  by_cases h1 : Char.toUpper c = ' '
  · left; simp [h1]
  · by_cases h2 : Char.toUpper c = '/'
    · left; simp [h1, h2]
    · right; exact ⟨by simp [h1, h2], h1, h2⟩

theorem normChar_upper_fix (c : Char) : Char.toUpper (normChar c) = normChar c := by
  rcases normChar_cases c with h | ⟨h, _, _⟩
  · rw [h]; decide
  · rw [h]; exact toUpper_idem c

theorem normChar_ne_space (c : Char) : normChar c ≠ ' ' := by
  rcases normChar_cases c with h | ⟨h, hs, _⟩
  · rw [h]; decide
  · rw [h]; exact hs

theorem normChar_ne_slash (c : Char) : normChar c ≠ '/' := by
  rcases normChar_cases c with h | ⟨h, _, hs⟩
  · rw [h]; decide
  · rw [h]; exact hs

theorem normChar_ws (c : Char) (h : Char.isWhitespace c = false) :
    Char.isWhitespace (normChar c) = false := by
  rcases normChar_cases c with hc | ⟨hc, _, _⟩
  · rw [hc]; decide
  · rw [hc]; exact toUpper_ws c h

theorem normChar_normChar (c : Char) : normChar (normChar c) = normChar c := by
  calc normChar (normChar c)
      = if (if Char.toUpper (normChar c) = ' ' then '_' else Char.toUpper (normChar c)) = '/'
          then '_'
        else (if Char.toUpper (normChar c) = ' ' then '_' else Char.toUpper (normChar c)) :=
        rfl
    _ = normChar c := by
        rw [normChar_upper_fix, if_neg (normChar_ne_space c), if_neg (normChar_ne_slash c)]

/-! ### Idempotence of the Schema Normalizer (claim C7) -/

theorem normalizeNameL_eq_map (l : List Char) :
    normalizeNameL l = (stripChars l).map normChar := by
  simp only [normalizeNameL, replaceChar, List.map_map]
  rfl

/-- Whatever `strip` returns starts with a non-whitespace character. -/
theorem stripChars_head (l : List Char) (x : Char) (hx : (stripChars l).head? = some x) :
    Char.isWhitespace x = false := by
  have hne : stripChars l ≠ [] := by
    intro hn; rw [hn] at hx; simp at hx
  have hrev : (stripChars l).reverse =
      List.dropWhile Char.isWhitespace (l.dropWhile Char.isWhitespace).reverse := by
    simp [stripChars, List.rdropWhile]
  have hsuf : (stripChars l).reverse <:+ (l.dropWhile Char.isWhitespace).reverse := by
    rw [hrev]; exact List.dropWhile_suffix _
  have hpre : stripChars l <+: l.dropWhile Char.isWhitespace := by
    have := List.reverse_suffix.mp hsuf
    exact this
  obtain ⟨tl, htl⟩ := hpre
  have hm1ne : l.dropWhile Char.isWhitespace ≠ [] := by
    intro hn
    rw [hn] at htl
    rcases List.append_eq_nil.mp htl with ⟨h1, _⟩
    exact hne h1
  have hh : (l.dropWhile Char.isWhitespace).head? = some x := by
    rw [← htl, List.head?_append, hx]
    rfl
  have hnot := List.head_dropWhile_not Char.isWhitespace l (w := hm1ne)
  rw [List.head?_eq_head hm1ne] at hh
  have : (l.dropWhile Char.isWhitespace).head hm1ne = x := by
    exact Option.some_injective _ hh
  rw [this] at hnot
  exact hnot

/-- Whatever `strip` returns ends with a non-whitespace character. -/
theorem stripChars_last (l : List Char) (x : Char) (hx : (stripChars l).getLast? = some x) :
    Char.isWhitespace x = false := by
  have hne : stripChars l ≠ [] := by
    intro hn; rw [hn] at hx; simp at hx
  have hnot : Char.isWhitespace ((stripChars l).getLast hne) = false :=
    Bool.eq_false_iff.mpr
      (List.rdropWhile_last_not (p := Char.isWhitespace)
        (l := l.dropWhile Char.isWhitespace) hne)
  rw [List.getLast?_eq_getLast _ hne] at hx
  have heq : (stripChars l).getLast hne = x := Option.some_injective _ hx
  rw [heq] at hnot
  exact hnot

/-- Stripping is a no-op on the image of a normalized name: the result of one
normalization pass has non-whitespace ends, and the character maps preserve
that. -/
theorem stripChars_map_fix (l : List Char) :
    stripChars ((stripChars l).map normChar) = (stripChars l).map normChar := by
  cases hm : stripChars l with
  | nil => simp [stripChars]
  | cons a rest =>
    have hhead : Char.isWhitespace a = false := by
      apply stripChars_head l a
      rw [hm]; rfl
    have hlastOrig : Char.isWhitespace ((a :: rest).getLast (by simp)) = false := by
      apply stripChars_last l
      rw [hm]
      exact List.getLast?_eq_getLast _ (by simp)
    have hmap : (a :: rest).map normChar = normChar a :: rest.map normChar := rfl
    show stripChars ((a :: rest).map normChar) = (a :: rest).map normChar
    have hdrop : ((a :: rest).map normChar).dropWhile Char.isWhitespace =
        (a :: rest).map normChar := by
      rw [hmap, List.dropWhile_cons, if_neg (by simp [normChar_ws a hhead])]
    have hrdrop : List.rdropWhile Char.isWhitespace ((a :: rest).map normChar) =
        (a :: rest).map normChar := by
      apply List.rdropWhile_eq_self_iff.mpr
      intro hl
      rw [List.getLast_map]
      simp only [Bool.not_eq_true]
      apply normChar_ws
      exact hlastOrig
    show List.rdropWhile Char.isWhitespace
        (((a :: rest).map normChar).dropWhile Char.isWhitespace) = (a :: rest).map normChar
    rw [hdrop, hrdrop]

theorem normalizeNameL_idem (l : List Char) :
    normalizeNameL (normalizeNameL l) = normalizeNameL l := by
  rw [normalizeNameL_eq_map, normalizeNameL_eq_map, stripChars_map_fix l]
  generalize stripChars l = m
  induction m with
  | nil => rfl
  | cons a t ih => simp only [List.map_cons, normChar_normChar, ih]

theorem normalizeName_idem (s : String) :
    normalizeName (normalizeName s) = normalizeName s := by
  simp only [normalizeName]
  rw [normalizeNameL_idem]

/-- C7: column-name normalization (trim whitespace, uppercase, replace spaces
and slashes with underscore) is idempotent - applying it twice to any header
set yields the same result as applying it once. -/
theorem c7_normalization_idempotent (hs : List String) :
    standardizeColumns (standardizeColumns hs) = standardizeColumns hs := by
  simp only [standardizeColumns]
  induction hs with
  | nil => rfl
  | cons a t ih => simp only [List.map_cons, normalizeName_idem, ih]

/-! ### The validation loop stops at the first offending column -/

/-- If the loop of lines 99-103 reports nothing, every antibiotic column in
the scanned list is clean. -/
theorem firstBad_eq_none (t : RawTable) (cs : List String) (h : firstBad t cs = none) :
    ∀ c ∈ cs, badValues t c = [] := by
  induction cs with
  | nil => intro c hc; cases hc
  | cons a rest ih =>
    have hstep : firstBad t (a :: rest) =
        if badValues t a = [] then firstBad t rest else some (a, badValues t a) := rfl
    intro c hc
    by_cases ha : badValues t a = []
    · rw [hstep, if_pos ha] at h
      rcases List.mem_cons.mp hc with rfl | hmem
      · exact ha
      · exact ih h c hmem
    · rw [hstep, if_neg ha] at h
      cases h

/-- If the loop of lines 99-103 reports `(c, b)`, then `b` is exactly the
bad-value set of `c`, it is nonempty, and every antibiotic column scanned
before `c` is clean - i.e. `c` is the first offending column. -/
theorem firstBad_eq_some (t : RawTable) (cs : List String) (c : String) (b : List String)
    (h : firstBad t cs = some (c, b)) :
    b = badValues t c ∧ badValues t c ≠ [] ∧
    ∃ pre post, cs = pre ++ c :: post ∧ ∀ x ∈ pre, badValues t x = [] := by
  induction cs with
  | nil => cases h
  | cons a rest ih =>
    have hstep : firstBad t (a :: rest) =
        if badValues t a = [] then firstBad t rest else some (a, badValues t a) := rfl
    by_cases ha : badValues t a = []
    · rw [hstep, if_pos ha] at h
      obtain ⟨hb, hne, pre, post, hsplit, hpre⟩ := ih h
      refine ⟨hb, hne, a :: pre, post, by rw [hsplit]; rfl, ?_⟩
      intro x hx
      rcases List.mem_cons.mp hx with rfl | hx2
      · exact ha
      · exact hpre x hx2
    · rw [hstep, if_neg ha] at h
      have hac : a = c ∧ badValues t a = b := by
        have := Option.some_injective _ h
        exact ⟨congrArg Prod.fst this, congrArg Prod.snd this⟩
      obtain ⟨rfl, hab⟩ := hac
      exact ⟨hab.symm, ha, [], rest, rfl, by intro x hx; cases hx⟩

/-! ### Claim C5 - MissingColumnsError lists every absent required column -/

/-- C5: if any required metadata column is absent after normalization, the
pipeline fails with a `MissingColumnsError` whose payload contains exactly the
absent required columns (all of them), and no output is produced. -/
theorem c5_missing_columns_all_reported (t : RawTable)
    (h : missingCols (standardize t) ≠ []) :
    runPipeline t = .error (.missingColumnsError (missingCols (standardize t))) ∧
    ∀ c, c ∈ missingCols (standardize t) ↔
      c ∈ requiredCols ∧ c ∉ (standardize t).headers := by
  constructor
  · unfold runPipeline
    rw [if_pos h]
  · intro c
    simp [missingCols, List.mem_filter]

/-- Witness for C5 at a concrete table missing `SNO` and `MDR`. -/
theorem c5_witness :
    runPipeline tblMissing = .error (.missingColumnsError (missingCols (standardize tblMissing))) ∧
    ∀ c, c ∈ missingCols (standardize tblMissing) ↔
      c ∈ requiredCols ∧ c ∉ (standardize tblMissing).headers :=
  c5_missing_columns_all_reported tblMissing (by decide)

/-! ### Claim C1 - which columns the InvalidCategoricalValueError reports -/

/-- C1 (amended): with all required columns present, if some antibiotic column
contains an out-of-set value then the pipeline fails with an
`InvalidCategoricalValueError` naming the first offending column in column
order, together with the exact set of upper-cased bad values of that column;
columns after it are not reported, and no output is produced. -/
theorem c1_first_offending_column (t : RawTable) (c0 : String)
    (hm : missingCols (standardize t) = [])
    (hc0 : c0 ∈ antibioticCols (standardize t))
    (hbad : badValues (standardize t) c0 ≠ []) :
    ∃ c pre post,
      antibioticCols (standardize t) = pre ++ c :: post ∧
      (∀ x ∈ pre, badValues (standardize t) x = []) ∧
      badValues (standardize t) c ≠ [] ∧
      runPipeline t = .error (.invalidCategoricalValueError c (badValues (standardize t) c)) := by
  cases hf : firstBad (standardize t) (antibioticCols (standardize t)) with
  | none => exact absurd (firstBad_eq_none _ _ hf c0 hc0) hbad
  | some p =>
    obtain ⟨c, b⟩ := p
    obtain ⟨hb, hne, pre, post, hsplit, hpre⟩ := firstBad_eq_some _ _ _ _ hf
    refine ⟨c, pre, post, hsplit, hpre, hne, ?_⟩
    unfold runPipeline
    rw [if_neg (by simp [hm]), hf, ← hb]

/-- C1 counterexample: on `tblTwoBad` both antibiotic columns `A` and `B`
offend, but the error produced names only column `A` (with its bad set
upper-cased to `{X}`, not the observed `"x"`); column `B` and its bad set
`{Z}` are never reported. -/
theorem c1_counterexample :
    runPipeline tblTwoBad = .error (.invalidCategoricalValueError "A" ["X"]) ∧
    badValues (standardize tblTwoBad) "B" = ["Z"] ∧
    "B" ∈ antibioticCols (standardize tblTwoBad) ∧ "B" ≠ "A" := by
  refine ⟨rfl, by decide, by decide, by decide⟩

/-- Witness for C1 (amended) at `tblTwoBad`, taking `"B"` as the known
offending column. -/
theorem c1_witness :
    ∃ c pre post,
      antibioticCols (standardize tblTwoBad) = pre ++ c :: post ∧
      (∀ x ∈ pre, badValues (standardize tblTwoBad) x = []) ∧
      badValues (standardize tblTwoBad) c ≠ [] ∧
      runPipeline tblTwoBad =
        .error (.invalidCategoricalValueError c (badValues (standardize tblTwoBad) c)) :=
  c1_first_offending_column tblTwoBad "B" (by decide) (by decide) (by decide)

/-! ### Claim C2 - lowercase validated values are silently lost by the Encoder -/

/-- C2 (code bug): the lowercase value `"s"` in antibiotic column `AMX` passes
validation (the validator upper-cases before checking), so the pipeline
succeeds - yet `sir_map` has only uppercase keys and is applied to the
original value, so the encoded cell and the long-table score are missing
instead of `0.0`, although the original cell was non-missing. -/
theorem c2_lowercase_value_unmapped :
    badValues (standardize tblLowercase) "AMX" = [] ∧
    (runPipeline tblLowercase).toOption.map (fun x => x.1.map fun r => r.abx) =
      some [[some "s"]] ∧
    (runPipeline tblLowercase).toOption.map (fun x => x.2.1.map fun r => r.abx) =
      some [[none]] ∧
    (runPipeline tblLowercase).toOption.map (fun x => x.2.2.map fun lr => lr.resistanceScore) =
      some [none] := by
  refine ⟨by decide, by decide, by decide, by decide⟩

/-! ### Filter-stage helpers -/

/-- `df_encoded.loc[df.index]` (line 148), applied to the encoded copy of the
wide table, selects exactly the encodings of the filtered wide rows. -/
theorem locSelect_eq (gf : List String) (sf : List (Option String)) (df : List NormRow) :
    locSelect gf sf df (df.map encodeRow) = (filterWide gf sf df).map encodeRow := by
  induction df with
  | nil => rfl
  | cons r t ih =>
    simp only [locSelect, filterWide] at ih ⊢
    simp only [List.map_cons, List.zip_cons_cons, List.filterMap_cons, List.filter_cons]
    cases hp : rowPasses gf sf r
    · simpa using ih
    · simpa using ih

/-- Membership in the long table: a long row is one `(antibiotic position,
antibiotic name, encoded row)` combination. -/
theorem mem_melt (cols : List String) (rows : List EncRow) (lr : LongRow) :
    lr ∈ melt cols rows ↔ ∃ k c r, cols[k]? = some c ∧ r ∈ rows ∧ lr = mkLong r k c := by
  simp only [melt, List.mem_flatMap, List.mem_map]
  constructor
  · rintro ⟨p, hp, r, hr, rfl⟩
    exact ⟨p.1, p.2, r, List.mem_enum_iff_getElem?.mp hp, hr, rfl⟩
  · rintro ⟨k, c, r, hk, hr, rfl⟩
    exact ⟨(k, c), List.mem_enum_iff_getElem?.mpr hk, r, hr, rfl⟩

/-- Every long row's `SNO` is one of the wide table's `SNO`s. -/
theorem melt_sno_mem (abx : List String) (wide : List NormRow) (lr : LongRow)
    (h : lr ∈ melt abx (wide.map encodeRow)) : lr.sno ∈ snosOf wide := by
  obtain ⟨k, c, r, _, hr, rfl⟩ := (mem_melt _ _ _).mp h
  obtain ⟨w, hw, rfl⟩ := List.mem_map.mp hr
  exact List.mem_map_of_mem _ hw

/-- When at least one antibiotic column exists, every wide row's `SNO` occurs
among the long rows' `SNO`s. -/
theorem wide_sno_mem_melt (abx : List String) (wide : List NormRow) (w : NormRow)
    (habx : abx ≠ []) (hw : w ∈ wide) :
    w.sno ∈ (melt abx (wide.map encodeRow)).map fun lr => lr.sno := by
  cases abx with
  | nil => exact absurd rfl habx
  | cons c cs =>
    apply List.mem_map.mpr
    refine ⟨mkLong (encodeRow w) 0 c, ?_, rfl⟩
    exact (mem_melt _ _ _).mpr ⟨0, c, encodeRow w, by simp, List.mem_map_of_mem _ hw, rfl⟩

/-! ### Claim C3 - the three filtered views reference the same isolates -/

/-- C8: selecting the full observed gender set and the full observed
sample-type set leaves the wide, encoded, and long tables unchanged. -/
theorem c8_full_filter_noop (wide : List NormRow) (abx : List String) :
    filterWide (observedGenders wide) (observedSampleTypes wide) wide = wide ∧
    locSelect (observedGenders wide) (observedSampleTypes wide) wide (wide.map encodeRow) =
      wide.map encodeRow ∧
    filteredLongTable (observedGenders wide) (observedSampleTypes wide) abx wide =
      melt abx (wide.map encodeRow) := by
  have hW : filterWide (observedGenders wide) (observedSampleTypes wide) wide = wide := by
    apply List.filter_eq_self.mpr
    intro r hr
    simp only [rowPasses, observedGenders, observedSampleTypes, Bool.and_eq_true,
      decide_eq_true_eq, List.mem_dedup]
    exact ⟨List.mem_map_of_mem _ hr, List.mem_map_of_mem _ hr⟩
  refine ⟨hW, ?_, ?_⟩
  · rw [locSelect_eq, hW]
  · unfold filteredLongTable
    rw [hW]
    apply List.filter_eq_self.mpr
    intro lr hlr
    simp only [decide_eq_true_eq]
    exact melt_sno_mem abx wide lr hlr

/-! ### Claim C9 - long rows are kept by SNO, not by their own filter fate -/

/-- C9: if `ri` passes the gender / sample-type filter and `rj` shares its
`SNO`, then every long row derived from `rj` survives the long-table filter -
whether or not `rj` itself passes, because line 149 keeps any long row whose
`SNO` occurs among the retained isolates. -/
theorem c9_duplicate_sno_rows_kept (wide : List NormRow) (abx : List String)
    (gf : List String) (sf : List (Option String)) (ri rj : NormRow)
    (hri : ri ∈ wide) (hrj : rj ∈ wide) (hsno : rj.sno = ri.sno)
    (hg : ri.gender ∈ gf) (hs : ri.sampleType ∈ sf) :
    ∀ k c, abx[k]? = some c →
      mkLong (encodeRow rj) k c ∈ filteredLongTable gf sf abx wide := by
  intro k c hk
  unfold filteredLongTable filterLong
  apply List.mem_filter.mpr
  refine ⟨(mem_melt _ _ _).mpr ⟨k, c, encodeRow rj, hk, List.mem_map_of_mem _ hrj, rfl⟩, ?_⟩
  simp only [decide_eq_true_eq]
  show rj.sno ∈ snosOf (filterWide gf sf wide)
  rw [hsno]
  apply List.mem_map_of_mem
  apply List.mem_filter.mpr
  exact ⟨hri, by simp [rowPasses, hg, hs]⟩

/-- Witness for C9: `rowDup` shares `SNO = "1"` with `rowF` and itself fails
the gender filter `["F"]`, yet its long rows survive the long-table filter. -/
theorem c9_witness :
    mkLong (encodeRow rowDup) 0 "AMX" ∈
      filteredLongTable ["F"] [some "Urine"] ["AMX", "CIP"] [rowF, rowDup] ∧
    rowDup.gender ∉ (["F"] : List String) :=
  ⟨c9_duplicate_sno_rows_kept [rowF, rowDup] ["AMX", "CIP"] ["F"] [some "Urine"] rowF rowDup
      (by decide) (by decide) (by decide) (by decide) (by decide) 0 "AMX" (by decide),
    by decide⟩

/-! ### Score range of encoded cells -/

/-- An encoded antibiotic cell is either missing or one of the three scores. -/
theorem bind_sirMap_range (v : Option String) :
    v.bind sirMap = none ∨ v.bind sirMap = some 0 ∨ v.bind sirMap = some (1/2) ∨
    v.bind sirMap = some 1 := by
  cases v with
  | none => exact Or.inl rfl
  | some s =>
    have hv : (some s).bind sirMap = sirMap s := rfl
    rw [hv]
    unfold sirMap
    split
    · exact Or.inr (Or.inl rfl)
    · split
      · exact Or.inr (Or.inr (Or.inl rfl))
      · split
        · exact Or.inr (Or.inr (Or.inr rfl))
        · exact Or.inl rfl

/-- Every long-table score produced by the pipeline is missing or in
`{0, 1/2, 1}`. -/
theorem melt_score_range (abx : List String) (wide : List NormRow) (lr : LongRow)
    (h : lr ∈ melt abx (wide.map encodeRow)) :
    lr.resistanceScore = none ∨ lr.resistanceScore = some 0 ∨
    lr.resistanceScore = some (1/2) ∨ lr.resistanceScore = some 1 := by
  obtain ⟨k, c, r, hk, hr, rfl⟩ := (mem_melt _ _ _).mp h
  obtain ⟨w, hw, rfl⟩ := List.mem_map.mp hr
  have hval : (mkLong (encodeRow w) k c).resistanceScore =
      ((w.abx[k]?).map fun v => v.bind sirMap).getD none := by
    show (w.abx.map fun v => v.bind sirMap).getD k none = _
    rw [List.getD_eq_getElem?_getD, List.getElem?_map]
  rw [hval]
  cases hcell : w.abx[k]? with
  | none => exact Or.inl rfl
  | some v => simpa using bind_sirMap_range v

/-! ### Claim C4 - long-table row count and label mapping -/

theorem melt_length (cols : List String) (rows : List EncRow) :
    (melt cols rows).length = rows.length * cols.length := by
  simp only [melt, List.length_flatMap, Function.comp_def, List.length_map,
    List.map_const', List.sum_replicate, smul_eq_mul, List.enum_length]
  exact Nat.mul_comm _ _

/-- C4: the long table has exactly `|wide rows| * |antibiotic columns|` rows -
rows with a missing original value are kept as missing-score rows - and every
row with a non-missing score carries the label given by the fixed map
0.0→Sensitive, 0.5→Intermediate, 1.0→Resistant. -/
theorem c4_reshape_rowcount_and_labels (wide : List NormRow) (abx : List String) :
    (melt abx (wide.map encodeRow)).length = wide.length * abx.length ∧
    ∀ lr ∈ melt abx (wide.map encodeRow),
      (lr.resistanceScore = none ∧ resistanceLabel lr.resistanceScore = none) ∨
      (lr.resistanceScore = some 0 ∧ resistanceLabel lr.resistanceScore = some "Sensitive") ∨
      (lr.resistanceScore = some (1/2) ∧
        resistanceLabel lr.resistanceScore = some "Intermediate") ∨
      (lr.resistanceScore = some 1 ∧ resistanceLabel lr.resistanceScore = some "Resistant") := by
  constructor
  · rw [melt_length, List.length_map]
  · intro lr hlr
    rcases melt_score_range abx wide lr hlr with h | h | h | h
    · exact Or.inl ⟨h, by rw [h]; rfl⟩
    · exact Or.inr (Or.inl ⟨h, by rw [h]; norm_num [resistanceLabel]⟩)
    · exact Or.inr (Or.inr (Or.inl ⟨h, by rw [h]; norm_num [resistanceLabel]⟩))
    · exact Or.inr (Or.inr (Or.inr ⟨h, by rw [h]; norm_num [resistanceLabel]⟩))

/-- Witness for C4 at a one-row, two-antibiotic dataset, evaluated at the long
row for `AMX` (score `1`, label `Resistant`). -/
theorem c4_witness :
    (melt ["AMX", "CIP"] ([rowF].map encodeRow)).length = 1 * 2 ∧
    (((mkLong (encodeRow rowF) 0 "AMX").resistanceScore = none ∧
        resistanceLabel (mkLong (encodeRow rowF) 0 "AMX").resistanceScore = none) ∨
      ((mkLong (encodeRow rowF) 0 "AMX").resistanceScore = some 0 ∧
        resistanceLabel (mkLong (encodeRow rowF) 0 "AMX").resistanceScore = some "Sensitive") ∨
      ((mkLong (encodeRow rowF) 0 "AMX").resistanceScore = some (1/2) ∧
        resistanceLabel (mkLong (encodeRow rowF) 0 "AMX").resistanceScore =
          some "Intermediate") ∨
      ((mkLong (encodeRow rowF) 0 "AMX").resistanceScore = some 1 ∧
        resistanceLabel (mkLong (encodeRow rowF) 0 "AMX").resistanceScore =
          some "Resistant")) :=
  ⟨(c4_reshape_rowcount_and_labels [rowF] ["AMX", "CIP"]).1,
    (c4_reshape_rowcount_and_labels [rowF] ["AMX", "CIP"]).2
      (mkLong (encodeRow rowF) 0 "AMX") (by decide)⟩

/-! ### Counting lemmas for the resistance-distribution percentages -/

theorem sum_map_add_nat (ks : List String) (f g : String → Nat) :
    (ks.map fun x => f x + g x).sum = (ks.map f).sum + (ks.map g).sum := by
  induction ks with
  | nil => rfl
  | cons a t ih =>
    simp only [List.map_cons, List.sum_cons, ih]
    omega

theorem sum_ite_eq_zero (ks : List String) (a : String) (ha : a ∉ ks) :
    (ks.map fun x => if x = a then (1 : Nat) else 0).sum = 0 := by
  induction ks with
  | nil => rfl
  | cons b t ih =>
    have hb : ¬(b = a) := fun h => ha (h ▸ List.mem_cons_self b t)
    simp only [List.map_cons, List.sum_cons, if_neg hb,
      ih fun h => ha (List.mem_cons_of_mem _ h)]

theorem sum_ite_eq_one (ks : List String) (a : String) (hnd : ks.Nodup) (ha : a ∈ ks) :
    (ks.map fun x => if x = a then (1 : Nat) else 0).sum = 1 := by
  induction ks with
  | nil => cases ha
  | cons b t ih =>
    rcases List.mem_cons.mp ha with rfl | hmem
    · have hat : a ∉ t := (List.nodup_cons.mp hnd).1
      simp only [List.map_cons, List.sum_cons, sum_ite_eq_zero t a hat]
      simp
    · have hb : ¬(b = a) := by
        intro h
        subst h
        exact (List.nodup_cons.mp hnd).1 hmem
      simp only [List.map_cons, List.sum_cons, if_neg hb,
        ih (List.nodup_cons.mp hnd).2 hmem]

/-- Summing the per-value counts over a duplicate-free cover of `l` counts
every element of `l` exactly once. -/
theorem sum_count_gen (l : List String) (ks : List String) (hnd : ks.Nodup)
    (hcov : ∀ x ∈ l, x ∈ ks) :
    (ks.map fun x => l.count x).sum = l.length := by
  induction l with
  | nil => simp
  | cons a t ih =>
    have hcov2 : ∀ x ∈ t, x ∈ ks := fun x hx => hcov x (List.mem_cons_of_mem _ hx)
    have ha : a ∈ ks := hcov a (List.mem_cons_self _ _)
    have hstep : (ks.map fun x => (a :: t).count x)
        = ks.map fun x => t.count x + if x = a then 1 else 0 := by
      apply List.map_congr_left
      intro x _
      rw [List.count_cons]
      by_cases hxa : x = a
      · subst hxa
        simp
      · simp only [beq_iff_eq]
        rw [if_neg fun hh => hxa hh.symm, if_neg hxa]
    rw [hstep, sum_map_add_nat, ih hcov2, sum_ite_eq_one ks a hnd ha]
    rfl

theorem sum_count_dedup (l : List String) :
    (l.dedup.map fun x => l.count x).sum = l.length :=
  sum_count_gen l l.dedup (List.nodup_dedup l) fun _ hx => List.mem_dedup.mpr hx

/-! ### Claim C6 - percentages sum to 100 -/

/-- C6: for an antibiotic present in the filtered long table with no missing
scores, the per-label resistance-distribution percentages sum to exactly
100. -/
theorem c6_percent_sum (wide : List NormRow) (abx : List String) (gf : List String)
    (sf : List (Option String)) (a : String)
    (hex : ∃ lr ∈ filteredLongTable gf sf abx wide, lr.antibiotic = a)
    (hnm : ∀ lr ∈ filteredLongTable gf sf abx wide,
      lr.antibiotic = a → lr.resistanceScore ≠ none) :
    ((resistanceDistribution (filteredLongTable gf sf abx wide) a).map fun q => q.2).sum
      = 100 := by
  obtain ⟨lr0, hlr0, ha0⟩ := hex
  have hmelt0 : lr0 ∈ melt abx (wide.map encodeRow) := by
    have h2 := hlr0
    unfold filteredLongTable filterLong at h2
    exact List.mem_of_mem_filter h2
  have hnone := hnm lr0 hlr0 ha0
  have hlabel : ∃ lab, resistanceLabel lr0.resistanceScore = some lab := by
    rcases melt_score_range abx wide lr0 hmelt0 with h | h | h | h
    · exact absurd h hnone
    · exact ⟨"Sensitive", by rw [h]; rfl⟩
    · exact ⟨"Intermediate", by rw [h]; norm_num [resistanceLabel]⟩
    · exact ⟨"Resistant", by rw [h]; norm_num [resistanceLabel]⟩
  obtain ⟨lab0, hlab0⟩ := hlabel
  have hmem0 : lab0 ∈ summaryLabels (filteredLongTable gf sf abx wide) a := by
    unfold summaryLabels
    apply List.mem_filterMap.mpr
    exact ⟨lr0, List.mem_filter.mpr ⟨hlr0, by simp [ha0]⟩, hlab0⟩
  have hlen : (summaryLabels (filteredLongTable gf sf abx wide) a).length ≠ 0 := by
    intro h
    rw [List.length_eq_zero] at h
    rw [h] at hmem0
    cases hmem0
  have hrw : ((resistanceDistribution (filteredLongTable gf sf abx wide) a).map
        fun q => q.2)
      = (summaryLabels (filteredLongTable gf sf abx wide) a).dedup.map fun lab =>
          (((summaryLabels (filteredLongTable gf sf abx wide) a).count lab : Nat) : Rat) *
            (100 / (((summaryLabels (filteredLongTable gf sf abx wide) a).length : Nat) : Rat)) := by
    unfold resistanceDistribution
    rw [List.map_map]
    apply List.map_congr_left
    intro lab _
    show (((summaryLabels (filteredLongTable gf sf abx wide) a).count lab : Nat) : Rat) /
        (((summaryLabels (filteredLongTable gf sf abx wide) a).length : Nat) : Rat) * 100 = _
    ring
  rw [hrw, List.sum_map_mul_right]
  have hsum : ((summaryLabels (filteredLongTable gf sf abx wide) a).dedup.map fun lab =>
        (((summaryLabels (filteredLongTable gf sf abx wide) a).count lab : Nat) : Rat)).sum
      = (((summaryLabels (filteredLongTable gf sf abx wide) a).length : Nat) : Rat) := by
    have hmm : ((summaryLabels (filteredLongTable gf sf abx wide) a).dedup.map fun lab =>
          (((summaryLabels (filteredLongTable gf sf abx wide) a).count lab : Nat) : Rat))
        = ((summaryLabels (filteredLongTable gf sf abx wide) a).dedup.map fun lab =>
            (summaryLabels (filteredLongTable gf sf abx wide) a).count lab).map
          fun n : Nat => (n : Rat) := by
      rw [List.map_map]
      rfl
    rw [hmm, ← Nat.cast_list_sum, sum_count_dedup]
  rw [hsum]
  have hne : (((summaryLabels (filteredLongTable gf sf abx wide) a).length : Nat) : Rat) ≠ 0 :=
    Nat.cast_ne_zero.mpr hlen
  field_simp

/-- Witness for C6 on a two-isolate dataset with no missing `AMX` values. -/
theorem c6_witness :
    ((resistanceDistribution
        (filteredLongTable ["F", "M"] [some "Urine", some "Blood"] ["AMX", "CIP"]
          [rowF, rowM]) "AMX").map fun q => q.2).sum = 100 :=
  c6_percent_sum [rowF, rowM] ["AMX", "CIP"] ["F", "M"] [some "Urine", some "Blood"] "AMX"
    (by decide) (by decide)

/-! ### Claim C10 - missing ESBL/MDR cells become "NAN" and stay in the denominator -/

/-- C10: a missing `ESBL` (or `MDR`) cell is normalized to the literal string
`"NAN"`, which is not `"YES"`, so the isolate contributes nothing to the
numerator of the ESBL (MDR) prevalence while still being counted in its
denominator. -/
theorem c10_missing_flag_in_denominator (r : RawRow) (rest : List NormRow) :
    (r.esbl = none →
      (normalizeMetadata r).esbl = "NAN" ∧ (normalizeMetadata r).esbl ≠ "YES" ∧
      esblPct (normalizeMetadata r :: rest) =
        ((rest.countP fun x => decide (x.esbl = "YES") : Nat) : Rat) /
          ((rest.length : Rat) + 1) * 100) ∧
    (r.mdr = none →
      (normalizeMetadata r).mdr = "NAN" ∧ (normalizeMetadata r).mdr ≠ "YES" ∧
      mdrPct (normalizeMetadata r :: rest) =
        ((rest.countP fun x => decide (x.mdr = "YES") : Nat) : Rat) /
          ((rest.length : Rat) + 1) * 100) := by
  constructor
  · intro h
    have hn : (normalizeMetadata r).esbl = "NAN" := by
      show strUpper (astypeStr r.esbl) = "NAN"
      rw [h]
      decide
    refine ⟨hn, by rw [hn]; decide, ?_⟩
    unfold esblPct
    rw [List.countP_cons, List.length_cons]
    have hfalse : decide ((normalizeMetadata r).esbl = "YES") = false := by
      rw [hn]
      decide
    rw [hfalse]
    push_cast
    ring
  · intro h
    have hn : (normalizeMetadata r).mdr = "NAN" := by
      show strUpper (astypeStr r.mdr) = "NAN"
      rw [h]
      decide
    refine ⟨hn, by rw [hn]; decide, ?_⟩
    unfold mdrPct
    rw [List.countP_cons, List.length_cons]
    have hfalse : decide ((normalizeMetadata r).mdr = "YES") = false := by
      rw [hn]
      decide
    rw [hfalse]
    push_cast
    ring

/-- Witness for C10 at a raw row with both flag cells missing, next to one
other isolate. -/
theorem c10_witness :
    ((normalizeMetadata rowNoFlags).esbl = "NAN" ∧
      (normalizeMetadata rowNoFlags).esbl ≠ "YES" ∧
      esblPct (normalizeMetadata rowNoFlags :: [rowM]) =
        (([rowM].countP fun x => decide (x.esbl = "YES") : Nat) : Rat) /
          (([rowM].length : Rat) + 1) * 100) ∧
    ((normalizeMetadata rowNoFlags).mdr = "NAN" ∧
      (normalizeMetadata rowNoFlags).mdr ≠ "YES" ∧
      mdrPct (normalizeMetadata rowNoFlags :: [rowM]) =
        (([rowM].countP fun x => decide (x.mdr = "YES") : Nat) : Rat) /
          (([rowM].length : Rat) + 1) * 100) :=
  ⟨(c10_missing_flag_in_denominator rowNoFlags [rowM]).1 (by decide),
    (c10_missing_flag_in_denominator rowNoFlags [rowM]).2 (by decide)⟩

end AMRDash
